import Mathlib

/-!
Shallow embedding of the `genz` crate (src/lifetime.rs, src/gen.rs,
src/storable.rs, src/lib.rs), a capability-token library that mints
generative type markers inside invariant-lifetime regions.

Modelling choices, from the source:

* `Region<'c>` and `Scope<'c>` are zero-sized `PhantomData` wrappers at
  runtime; they are embedded as field-less structures, so every value of
  each type is the same constant, exactly as in the compiled program.
* The phantom type parameter `T` of `GenType<'c, T>` exists only at the
  type level in Rust; it is reified here as a `TypeId` field (a natural
  number standing for `std::any::TypeId`, which the source uses only for
  equality comparison).  A marker is therefore a pair of a region and a
  type descriptor, matching the spec's data model for markers.
* The `gen_tuple!` macro instantiates the same body once per arity 2..10;
  the arity-generic content of that body is embedded over `List TypeId`
  (the list of the tuple's element-type descriptors, in order), and the
  set of instantiated arities is recorded separately in `genTupleArities`.
* Rust's `Option::unwrap` panic (used by `with_types` / `Gen::from_types`)
  is embedded as `Except.error`.
* The `Storable` trait bound `BorrowMut<Self::Generative<'static>> +
  From<Self::Generative<'static>>` is embedded as an explicit dictionary
  `StorableOps` of the conversion functions, carrying the contract stated
  by the spec's data model (the erased and bound representations are
  related by a lossless conversion, and `borrow`/`borrow_mut` view the
  same data) as equational fields.
* The static guarantee of lifetime invariance (each `with_region`
  activation's `for<'c>` skolem lifetime unifies with no other
  activation's) has no runtime representation; it is embedded in a
  separate tagged layer where each activation's skolem lifetime is
  reified as a fresh natural-number tag threaded through an explicit
  counter, following the spec's portable-design note for this guarantee.
-/

/-- Reification of `std::any::TypeId`: a stable per-type identifier used
only for equality comparison. -/
abbrev TypeId := Nat

/-- Embeds `Region<'c>` (src/lifetime.rs): a `repr(transparent)` wrapper
around `PhantomData`, hence a zero-sized type whose every value is the
same constant. -/
structure Region where
deriving DecidableEq

/-- Embeds `Scope<'c>` (src/lifetime.rs): likewise a zero-sized
`PhantomData` wrapper. -/
structure Scope where
deriving DecidableEq

/-- Embeds `STATIC_REGION: Region<'static> = Region(PhantomData)`. -/
def STATIC_REGION : Region := ⟨⟩

/-- Embeds `with_region` (src/lifetime.rs): `f(Region::<'static>(PhantomData))`. -/
def with_region {Z : Type _} (f : Region → Z) : Z :=
  f ⟨⟩

/-- Embeds `with_scope` (src/lifetime.rs): `f(Scope(PhantomData))`. -/
def with_scope {Z : Type _} (f : Scope → Z) : Z :=
  f ⟨⟩

/-- Embeds `GenType<'c, T>` (src/gen.rs): a region marker together with the
reified phantom type parameter. -/
structure GenType where
  region : Region
  ty : TypeId
deriving DecidableEq

/-- Embeds `with_type` (src/gen.rs):
`with_region(|region| f(GenType(region, PhantomData)))`. -/
def with_type {Z : Type _} (ty : TypeId) (f : GenType → Z) : Z :=
  with_region (fun region => f ⟨region, ty⟩)

/-- Embeds `StaticTuple::distinct` (src/gen.rs, `gen_tuple!` body): collect
the element types' `TypeId`s and compare every unordered pair; `false` as
soon as some later entry equals an earlier one, `true` otherwise.  The
nested index loops (`for i`, `for j in i+1..`) become structural recursion:
the head is compared against every later element, then the tail is checked. -/
def distinct : List TypeId → Bool
  | [] => true
  | t :: rest => rest.all (fun u => !(t == u)) && distinct rest

/-- Embeds `TryGenTuple::try_gen_tuple` (src/gen.rs, `gen_tuple!` body):
`distinct().then(|| (GenType(region, PhantomData::<T0>), ...))` — if the
requested types are distinct, one marker per element type, all sharing
`region`, in input order. -/
def try_gen_tuple (region : Region) (ids : List TypeId) : Option (List GenType) :=
  if distinct ids then some (ids.map (fun t => ⟨region, t⟩)) else none

/-- Embeds `try_with_types` (src/gen.rs):
`with_region(|region| Types::try_gen_tuple(region).map(|types| f(region, types)))`. -/
def try_with_types {Z : Type _} (ids : List TypeId) (f : Region → List GenType → Z) :
    Option Z :=
  with_region (fun region => (try_gen_tuple region ids).map (f region))

/-- Embeds Rust's `Option::unwrap`, which panics on `None`; the panic is
modelled as `Except.error` carrying the standard library's message. -/
def optionUnwrap {Z : Type _} : Option Z → Except String Z
  | some z => Except.ok z
  | none => Except.error "called Option::unwrap on a None value"

/-- Embeds `with_types` (src/gen.rs): `try_with_types(f).unwrap()`. -/
def with_types {Z : Type _} (ids : List TypeId) (f : Region → List GenType → Z) :
    Except String Z :=
  optionUnwrap (try_with_types ids f)

/-- Embeds the bounds of the `Storable` trait (src/gen.rs, src/storable.rs)
as an explicit dictionary.  `Z` is the stored (erased, `'static`) type and
`G` the runtime representation of `Z::Generative<'c>` (identical for every
`'c`, since regions are zero-sized).  `intoZ` embeds
`From<Self::Generative<'static>>`, `borrow` embeds
`Borrow<Self::Generative<'static>>`, and `update` embeds writing through
`BorrowMut`.  The two equations are the contract the source relies on:
the bound and erased representations are related by a lossless conversion
(spec data model), and `borrow`/`borrow_mut` expose the same underlying
data (the `Borrow`/`BorrowMut` contract). -/
structure StorableOps (Z G : Type _) where
  intoZ : G → Z
  borrow : Z → G
  update : Z → G → Z
  borrow_intoZ : ∀ g, borrow (intoZ g) = g
  borrow_update : ∀ z g, borrow (update z g) = g

/-- Embeds `Gen<T>(T)` (src/gen.rs): a `repr(transparent)` wrapper holding
the stored value. -/
structure Gen (Z : Type _) where
  val : Z

/-- Embeds `Gen::from_fn` (src/gen.rs): `Gen(f(STATIC_REGION).into())`. -/
def Gen.from_fn {Z G : Type _} (ops : StorableOps Z G) (f : Region → G) : Gen Z :=
  ⟨ops.intoZ (f STATIC_REGION)⟩

/-- Embeds `Gen::try_from_fn` (src/gen.rs):
`f(STATIC_REGION).map(|inner| Gen(inner.into()))`. -/
def Gen.try_from_fn {Z G : Type _} (ops : StorableOps Z G) (f : Region → Option G) :
    Option (Gen Z) :=
  (f STATIC_REGION).map (fun inner => ⟨ops.intoZ inner⟩)

/-- Embeds `Gen::from_type` (src/gen.rs):
`Self::from_fn(|region| f(GenType(region, PhantomData)))`. -/
def Gen.from_type {Z G : Type _} (ops : StorableOps Z G) (ty : TypeId)
    (f : GenType → G) : Gen Z :=
  Gen.from_fn ops (fun region => f ⟨region, ty⟩)

/-- Embeds `Gen::try_from_types` (src/gen.rs):
`Self::try_from_fn(|region| Types::try_gen_tuple(region).map(|types| f(region, types)))`. -/
def Gen.try_from_types {Z G : Type _} (ops : StorableOps Z G) (ids : List TypeId)
    (f : Region → List GenType → G) : Option (Gen Z) :=
  Gen.try_from_fn ops (fun region => (try_gen_tuple region ids).map (f region))

/-- Embeds `Gen::from_types` (src/gen.rs): `Self::try_from_types(f).unwrap()`. -/
def Gen.from_types {Z G : Type _} (ops : StorableOps Z G) (ids : List TypeId)
    (f : Region → List GenType → G) : Except String (Gen Z) :=
  optionUnwrap (Gen.try_from_types ops ids f)

/-- Embeds `Gen::with_ref` (src/gen.rs): `f(self.0.borrow())`.  It takes
`&self`, so the stored value is unchanged; only the result is returned. -/
def Gen.with_ref {Z G R : Type _} (ops : StorableOps Z G) (gen : Gen Z)
    (f : G → R) : R :=
  f (ops.borrow gen.val)

/-- Embeds `Gen::with_mut` (src/gen.rs): `f(self.0.borrow_mut())`.  The
closure's mutation of the borrowed value is made explicit: `f` returns its
result together with the new contents, which are written back through the
mutable borrow. -/
def Gen.with_mut {Z G R : Type _} (ops : StorableOps Z G) (gen : Gen Z)
    (f : G → R × G) : R × Gen Z :=
  ((f (ops.borrow gen.val)).1, ⟨ops.update gen.val (f (ops.borrow gen.val)).2⟩)

/-- The arities at which the `gen_tuple!` macro is invoked (src/gen.rs,
lines 262–270): one invocation each for 2, 3, ..., 10 type parameters. -/
def genTupleArities : List Nat := [2, 3, 4, 5, 6, 7, 8, 9, 10]

/-!
Tagged layer for the static lifetime-invariance guarantee.

At runtime every `Region` is the same zero-sized constant; each
activation's distinctness lives in the type system: `with_region` takes a
closure bound `for<'c>`, so each activation instantiates a fresh skolem
lifetime, and `Region<'c>` is invariant in `'c`, so two activations'
regions never unify.  Following the spec's portable-design note, the
skolem lifetime of each activation is reified as a fresh natural-number
tag drawn from a monotonically increasing counter threaded explicitly.
-/

/-- A marker as seen by the type system: the skolem lifetime tag of the
activation that minted it, together with its type descriptor. -/
structure TaggedGenType where
  tag : Nat
  ty : TypeId
deriving DecidableEq

/-- Tagged counterpart of `with_region`: the body receives the fresh skolem
tag for this activation and the advanced counter to thread through any
further activations (nested or sequential), and returns its result
together with the final counter. -/
def with_region_tagged {Z : Type _} (f : Nat → Nat → Z × Nat) (next : Nat) : Z × Nat :=
  f next (next + 1)

/-- Two activations of `with_region` — the second one nested inside or
sequenced after the first, which thread the counter identically — each
minting one marker for the same type descriptor `ty`. -/
def two_activations (ty : TypeId) (start : Nat) : (TaggedGenType × TaggedGenType) × Nat :=
  with_region_tagged (fun t1 n1 =>
    with_region_tagged (fun t2 n2 => ((⟨t1, ty⟩, ⟨t2, ty⟩), n2)) n1) start

/-- The acceptance check of a function generic over a single extent: it can
receive two markers only if both carry the same skolem lifetime tag. -/
def same_extent (m1 m2 : TaggedGenType) : Bool :=
  m1.tag == m2.tag

/-- Helper: the pairwise comparison loop of `distinct` succeeds exactly on
duplicate-free descriptor lists. -/
theorem distinct_iff_nodup (ids : List TypeId) : distinct ids = true ↔ ids.Nodup := by
  induction ids with
  | nil => simp [distinct]
  | cons t rest ih =>
    simp only [distinct, Bool.and_eq_true, List.all_eq_true, List.nodup_cons, ih,
      Bool.not_eq_true', beq_eq_false_iff_ne, ne_eq]
    constructor
    · rintro ⟨h1, h2⟩
      exact ⟨fun hm => h1 t hm rfl, h2⟩
    · rintro ⟨h1, h2⟩
      refine ⟨fun u hu he => h1 ?_, h2⟩
      rw [he]
      exact hu

/-- The identity `StorableOps` dictionary on a type `A`, matching the
`Storable` impls of src/storable.rs, where `Generative<'c>` has the same
runtime representation as the stored type and the `From`/`Borrow`
conversions are identities. -/
def idOps (A : Type _) : StorableOps A A where
  intoZ := id
  borrow := id
  update := fun _ g => g
  borrow_intoZ := fun _ => rfl
  borrow_update := fun _ _ => rfl

/-- C1: for every supported tuple of requested types, `try_with_types`
returns `none` iff at least one unordered pair of the tuple's type
descriptors compares equal (i.e. the list is not duplicate-free), and
otherwise returns `some` of the body's result, with the body receiving
exactly one marker per requested type, in the input order, all in the one
region opened for the call. -/
theorem try_with_types_correct (ids : List TypeId) (hsupp : ids.length ∈ genTupleArities)
    {Z : Type _} (f : Region → List GenType → Z) :
    (try_with_types ids f = none ↔ ¬ ids.Nodup) ∧
    (ids.Nodup →
      try_with_types ids f =
        some (f STATIC_REGION (ids.map (fun t => ⟨STATIC_REGION, t⟩)))) := by
  by_cases h : distinct ids = true
  · have hnd := (distinct_iff_nodup ids).mp h
    exact ⟨by simp [try_with_types, with_region, try_gen_tuple, h, hnd],
      fun _ => by simp [try_with_types, with_region, try_gen_tuple, h, STATIC_REGION]⟩
  · have hnd : ¬ ids.Nodup := fun hn => h ((distinct_iff_nodup ids).mpr hn)
    exact ⟨by simp [try_with_types, with_region, try_gen_tuple, h, hnd],
      fun hn => absurd hn hnd⟩

/-- Witness for C1 at the concrete supported tuple of descriptors `[0, 1]`. -/
theorem try_with_types_correct_witness :
    try_with_types [0, 1] (fun _ ms => ms) =
      some [(⟨STATIC_REGION, 0⟩ : GenType), ⟨STATIC_REGION, 1⟩] :=
  (try_with_types_correct [0, 1] (by decide) (fun _ ms => ms)).2 (by decide)

/-- C2: two activations of `with_region` (nested or sequential — both
thread the skolem-tag counter the same way) cannot be unified: markers
minted with the same type descriptor in each carry different lifetime
tags, so they are distinguishable, and a function generic over a single
extent, whose acceptance check is `same_extent`, rejects the mixed pair. -/
theorem extents_not_unifiable (ty : TypeId) (start : Nat) :
    (two_activations ty start).1.1.ty = (two_activations ty start).1.2.ty ∧
    (two_activations ty start).1.1 ≠ (two_activations ty start).1.2 ∧
    same_extent (two_activations ty start).1.1 (two_activations ty start).1.2 = false := by
  refine ⟨rfl, ?_, ?_⟩
  · intro h
    have htag := congrArg TaggedGenType.tag h
    simp only [two_activations, with_region_tagged] at htag
    omega
  · simp only [two_activations, with_region_tagged, same_extent]
    simp [Nat.succ_ne_self]

/-- C3: the non-try entry points are the `unwrap` of the try entry points:
`with_types` aborts (the modelled panic) iff `try_with_types` returns
`none` on the same tuple, and returns `z` iff `try_with_types` returns
`some z`; the same holds for `Gen.from_types` relative to
`Gen.try_from_types`. -/
theorem with_types_refines_try (ids : List TypeId) {Z G W : Type _}
    (f : Region → List GenType → Z) (ops : StorableOps W G)
    (g : Region → List GenType → G) :
    ((∃ e, with_types ids f = Except.error e) ↔ try_with_types ids f = none) ∧
    (∀ z, with_types ids f = Except.ok z ↔ try_with_types ids f = some z) ∧
    ((∃ e, Gen.from_types ops ids g = Except.error e) ↔
      Gen.try_from_types ops ids g = none) ∧
    (∀ gz, Gen.from_types ops ids g = Except.ok gz ↔
      Gen.try_from_types ops ids g = some gz) := by
  refine ⟨?_, ?_, ?_, ?_⟩
  · cases hopt : try_with_types ids f <;> simp [with_types, optionUnwrap, hopt]
  · intro z
    cases hopt : try_with_types ids f <;> simp [with_types, optionUnwrap, hopt]
  · cases hopt : Gen.try_from_types ops ids g <;>
      simp [Gen.from_types, optionUnwrap, hopt]
  · intro gz
    cases hopt : Gen.try_from_types ops ids g <;>
      simp [Gen.from_types, optionUnwrap, hopt]

/-- C4: on a tuple containing a duplicate descriptor, `try_with_types` and
`Gen.try_from_types` return `none` for every body — in this pure embedding
the result neither invokes nor depends on the body, so no marker is
observably produced and there is no partial effect. -/
theorem no_partial_mint (ids : List TypeId) (hdup : ¬ ids.Nodup)
    {Z G W : Type _} (ops : StorableOps W G)
    (f : Region → List GenType → Z) (g : Region → List GenType → G) :
    try_with_types ids f = none ∧ Gen.try_from_types ops ids g = none := by
  have h : ¬ distinct ids = true := fun hd => hdup ((distinct_iff_nodup ids).mp hd)
  constructor
  · simp [try_with_types, with_region, try_gen_tuple, h]
  · simp [Gen.try_from_types, Gen.try_from_fn, try_gen_tuple, h]

/-- Witness for C4 at the concrete duplicated tuple of descriptors `[0, 0]`. -/
theorem no_partial_mint_witness :
    try_with_types [0, 0] (fun _ ms => ms) = none ∧
    Gen.try_from_types (idOps (List GenType)) [0, 0] (fun _ ms => ms) = none :=
  no_partial_mint [0, 0] (by decide) (idOps (List GenType)) (fun _ ms => ms)
    (fun _ ms => ms)

/-- C5: storing with `Gen.from_type f` and reading with `with_ref` yields
back exactly the value `f` built: every `with_ref` call (two arbitrary
repeated reads are shown; `with_ref` takes the stored value immutably, so
it never changes it) recovers `f`'s result, and after an intervening
`with_mut` whose closure rewrites the contents, every subsequent
`with_ref` sees the rewritten contents. -/
theorem storable_round_trip {Z G R R2 S : Type _} (ops : StorableOps Z G)
    (ty : TypeId) (f : GenType → G) (read : G → R) (read2 : G → R2)
    (m : G → S × G) :
    (Gen.with_ref ops (Gen.from_type ops ty f) read = read (f ⟨STATIC_REGION, ty⟩)) ∧
    (Gen.with_ref ops (Gen.from_type ops ty f) read2 = read2 (f ⟨STATIC_REGION, ty⟩)) ∧
    (Gen.with_ref ops (Gen.with_mut ops (Gen.from_type ops ty f) m).2 read
       = read ((m (f ⟨STATIC_REGION, ty⟩)).2)) := by
  refine ⟨?_, ?_, ?_⟩ <;>
    simp [Gen.with_ref, Gen.with_mut, Gen.from_type, Gen.from_fn,
      ops.borrow_intoZ, ops.borrow_update, STATIC_REGION]

/-- C6: `Gen.from_type` always succeeds — it invokes `f` with a marker in
the freshly opened extent and stores the erased form of `f`'s result —
while `Gen.try_from_types` returns `none` iff the requested tuple has a
duplicate descriptor and otherwise stores the erased form of `f`'s
result. -/
theorem storable_bridge_construction {Z G : Type _} (ops : StorableOps Z G)
    (ty : TypeId) (f : GenType → G) (ids : List TypeId)
    (g : Region → List GenType → G) :
    (Gen.from_type ops ty f = ⟨ops.intoZ (f ⟨STATIC_REGION, ty⟩)⟩) ∧
    (Gen.try_from_types ops ids g = none ↔ ¬ ids.Nodup) ∧
    (ids.Nodup →
      Gen.try_from_types ops ids g =
        some ⟨ops.intoZ (g STATIC_REGION (ids.map (fun t => ⟨STATIC_REGION, t⟩)))⟩) := by
  refine ⟨rfl, ?_, ?_⟩
  · by_cases h : distinct ids = true
    · have hnd := (distinct_iff_nodup ids).mp h
      simp [Gen.try_from_types, Gen.try_from_fn, try_gen_tuple, h, hnd]
    · have hnd : ¬ ids.Nodup := fun hn => h ((distinct_iff_nodup ids).mpr hn)
      simp [Gen.try_from_types, Gen.try_from_fn, try_gen_tuple, h, hnd]
  · intro hn
    have h := (distinct_iff_nodup ids).mpr hn
    simp [Gen.try_from_types, Gen.try_from_fn, try_gen_tuple, h, STATIC_REGION]

/-- Witness for C6 at the concrete distinct tuple of descriptors `[0, 1]`. -/
theorem storable_bridge_construction_witness :
    Gen.try_from_types (idOps Nat) [0, 1] (fun _ _ => 7) = some ⟨7⟩ :=
  (storable_bridge_construction (idOps Nat) 3 (fun _ => 5) [0, 1]
    (fun _ _ => 7)).2.2 (by decide)

/-- C7: `with_region` invokes its body exactly once (witnessed by the
singleton invocation trace) with an extent and returns the body's result
unchanged, with no failure mode; `with_type` opens one fresh extent, mints
exactly one marker for the requested type, invokes the body with it
exactly once, and returns the body's result — it is total and its
definition never consults the `distinct` check. -/
theorem open_extent_single_type_total {Z : Type _} (f : Region → Z) (ty : TypeId)
    (g : GenType → Z) :
    (with_region (fun r => (f r, [r])) = (f STATIC_REGION, [STATIC_REGION])) ∧
    (with_region f = f STATIC_REGION) ∧
    (with_type ty (fun m => (g m, [m])) =
      (g ⟨STATIC_REGION, ty⟩, [(⟨STATIC_REGION, ty⟩ : GenType)])) ∧
    (with_type ty g = g ⟨STATIC_REGION, ty⟩) :=
  ⟨rfl, rfl, rfl, rfl⟩

/-- C8: the `distinct` verdict is invariant under permutation of the
tuple's element types, and permuting a distinct tuple still yields `some`,
with the markers handed to the body matching the permuted input order. -/
theorem order_independence (ids ids2 : List TypeId) (hperm : ids.Perm ids2) :
    (distinct ids = distinct ids2) ∧
    (distinct ids = true → ∀ {Z : Type _} (f : Region → List GenType → Z),
      try_with_types ids2 f =
        some (f STATIC_REGION (ids2.map (fun t => ⟨STATIC_REGION, t⟩)))) := by
  have hd : distinct ids = distinct ids2 := by
    rw [Bool.eq_iff_iff, distinct_iff_nodup, distinct_iff_nodup]
    exact hperm.nodup_iff
  refine ⟨hd, fun h Z f => ?_⟩
  have h2 : distinct ids2 = true := hd ▸ h
  simp [try_with_types, with_region, try_gen_tuple, h2, STATIC_REGION]

/-- Witness for C8 at the concrete permutation `[0, 1] ~ [1, 0]`. -/
theorem order_independence_witness :
    distinct [0, 1] = distinct [1, 0] ∧
    try_with_types [1, 0] (fun _ ms => ms) =
      some [(⟨STATIC_REGION, 1⟩ : GenType), ⟨STATIC_REGION, 0⟩] := by
  have h := order_independence [0, 1] [1, 0] (by decide)
  exact ⟨h.1, h.2 (by decide) (fun _ ms => ms)⟩

/-- C9: the `gen_tuple!` macro is instantiated exactly at the arities 2
through 10, and in particular there is no 1-element-tuple instance, so a
single-type request cannot go through the tuple interface. -/
theorem tuple_arities_two_to_ten :
    (∀ n : Nat, n ∈ genTupleArities ↔ 2 ≤ n ∧ n ≤ 10) ∧ 1 ∉ genTupleArities := by
  constructor
  · intro n
    simp only [genTupleArities, List.mem_cons, List.not_mem_nil, or_false]
    omega
  · decide

/-- C10: extents have no runtime identity — every `Region` (and every
`Scope`) is the same zero-sized constant, equal to `STATIC_REGION`;
`with_region`, `with_scope`, `with_type` and the `Gen` constructor simply
apply the body to that constant, reading and writing no state; and two
markers for the same type descriptor minted in different activations are
identical values at runtime. -/
theorem extents_no_runtime_identity {Z G W : Type _} (r r2 : Region) (s s2 : Scope)
    (ty : TypeId) (f : Region → Z) (h : Scope → Z) (g : GenType → Z)
    (ops : StorableOps W G) (fg : Region → G) :
    (r = r2) ∧ (r = STATIC_REGION) ∧ (s = s2) ∧
    (with_region f = f STATIC_REGION) ∧
    (with_scope h = h ⟨⟩) ∧
    (with_type ty g = g ⟨STATIC_REGION, ty⟩) ∧
    ((⟨r, ty⟩ : GenType) = ⟨r2, ty⟩) ∧
    (Gen.from_fn ops fg = ⟨ops.intoZ (fg STATIC_REGION)⟩) := by
  cases r; cases r2; cases s; cases s2
  exact ⟨rfl, rfl, rfl, rfl, rfl, rfl, rfl, rfl⟩
